import Mathlib

/-!
Shallow embedding of the operational-hours service (main.py and runonce.py).

Timestamps are modelled as integer seconds since an epoch; a calendar date is
the floor of the timestamp divided by 86400 seconds, matching `.dt.date` on a
naive datetime.  Sensor values and thresholds, Python floats in the source, are
modelled as rationals; the missing value (None, or NaN after a failed pandas
coercion) is `Option.none`, since NaN compares false against every threshold
exactly as a missing value does.
-/

namespace OpHours

/-- A classified reading: the `time` column paired with the boolean `ON`
column computed by `process_vibration_data` (both files). -/
structure ClassifiedReading where
  time : Int
  ON : Bool
deriving DecidableEq, Repr

/-- `date` column of runonce.py line 131 (`data["time"].dt.date`): the
calendar day of an epoch-seconds timestamp. -/
def dateOf (t : Int) : Int := t.ediv 86400

/-- The order used by `data.sort_values("time")` in both aggregators. -/
def timeLe (a b : ClassifiedReading) : Prop := a.time ≤ b.time

instance : DecidableRel timeLe := fun a b => Int.decLe a.time b.time

instance : IsTotal ClassifiedReading timeLe := ⟨fun a b => Int.le_total a.time b.time⟩

instance : IsTrans ClassifiedReading timeLe := ⟨fun _ _ _ h1 h2 => le_trans h1 h2⟩

/-- `data.sort_values("time")` (main.py line 125, runonce.py line 147). -/
def sortByTime (rs : List ClassifiedReading) : List ClassifiedReading :=
  List.insertionSort timeLe rs

/-- Python's `round(s / 60)` for an integer number of seconds `s`
(main.py line 145): nearest integer, ties to even (banker's rounding). -/
def pyRound60 (s : Int) : Int :=
  let q := s.ediv 60
  let r := s.emod 60
  if r < 30 then q
  else if 30 < r then q + 1
  else if q.emod 2 = 0 then q else q + 1

/-- The ON-seconds loop of main.py lines 131-142: each reading's `time_diff`
is the gap to the next reading (`shift(-1)`), the last row's diff is set
to 0, and diffs of ON rows are summed. -/
def onSecondsB : List ClassifiedReading → Int
  | r1 :: r2 :: rest => (if r1.ON then r2.time - r1.time else 0) + onSecondsB (r2 :: rest)
  | _ => 0

/-- `process_vibration_data` of main.py (Policy B): returns 0 on empty data;
sums next-reading deltas of ON rows when there is more than one reading and
at least one ON reading; converts to minutes with Python `round`. -/
def processVibrationB (data : List ClassifiedReading) : Int :=
  if data.isEmpty then 0
  else
    pyRound60
      (if 1 < data.length ∧ data.any (fun r => r.ON) then onSecondsB (sortByTime data) else 0)

/-- Spec-side formula for Policy B: the sum, over every reading except the
last whose `is_on` is true, of the gap to the next reading's timestamp. -/
def specOnSecondsB (rs : List ClassifiedReading) : Int :=
  (List.zipWith (fun a b => if a.ON then b.time - a.time else 0) rs rs.tail).sum

/-- The per-day ON-seconds loop of runonce.py lines 149-168: the last
reading's `next_time` is its own timestamp, and each ON row's diff is capped
at `15 * 60` seconds before summing. -/
def onSecondsC : List ClassifiedReading → Int
  | r1 :: r2 :: rest =>
      (if r1.ON then min (r2.time - r1.time) (15 * 60) else 0) + onSecondsC (r2 :: rest)
  | [r] => (if r.ON then min (r.time - r.time) (15 * 60) else 0)
  | [] => 0

/-- The sorted list of distinct dates produced by `data.groupby("date")`
(runonce.py line 141): insertion keeping the list sorted and duplicate-free. -/
def insertDate (d : Int) : List Int → List Int
  | [] => [d]
  | x :: xs => if d < x then d :: x :: xs else if d = x then x :: xs else x :: insertDate d xs

/-- All distinct dates appearing in the data, ascending (groupby key order). -/
def datesOf (rs : List ClassifiedReading) : List Int :=
  rs.foldr (fun r acc => insertDate (dateOf r.time) acc) []

/-- One day's group: the readings falling on date `d`, sorted by time
(runonce.py lines 141-147). -/
def dayGroup (rs : List ClassifiedReading) (d : Int) : List ClassifiedReading :=
  sortByTime (rs.filter (fun r => dateOf r.time = d))

/-- `process_vibration_data` of runonce.py (Policy C): empty data gives an
empty map; otherwise one entry per date, holding that day's capped ON-seconds
divided by 1440 (runonce.py line 171). -/
def processVibrationC (data : List ClassifiedReading) : List (Int × ℚ) :=
  if data.isEmpty then []
  else (datesOf data).map (fun d => (d, ((onSecondsC (dayGroup data d) : ℚ)) / 1440))

/-- Spec-side formula for Policy C's per-day seconds: the sum, over every
reading except the last, of the gap to the next reading capped at 900 s,
counted only when the reading is ON; the last reading contributes nothing. -/
def specOnSecondsC (rs : List ClassifiedReading) : Int :=
  (List.zipWith (fun a b => if a.ON then min (b.time - a.time) (15 * 60) else 0) rs rs.tail).sum

/-- The ON classification of main.py line 118 and runonce.py lines 134-136:
`(sensor_value > positive_threshold) | (sensor_value < negative_threshold)`,
where a missing value (None/NaN) compares false on both sides. -/
def classify (value : Option ℚ) (positive_threshold negative_threshold : ℚ) : Bool :=
  match value with
  | some v => decide (positive_threshold < v) || decide (v < negative_threshold)
  | none => false

/-- A parsed JSON value, the shape `sensor_readings` takes after
`json.loads` (or when it arrives already deserialized from the JSONB
column).  Numbers are rationals. -/
inductive Json where
  | null
  | bool (b : Bool)
  | num (q : ℚ)
  | str (s : String)
  | arr (items : List Json)
  | obj (fields : List (String × Json))
deriving Repr

/-- Outcome of a call to `extract_sensor_value_by_id`: a normal return
(`ok`) carrying the returned value (`none` models Python `None`), or an
uncaught `TypeError` propagating to the caller.  `json.JSONDecodeError`,
`AttributeError` and `KeyError` are caught by the function itself and so
never appear here; `TypeError` is absent from its `except` clause. -/
inductive ExtractResult where
  | ok (v : Option ℚ)
  | typeError
deriving DecidableEq, Repr

/-- Python `dict.get`: the value under `key`, or `None` when absent. -/
def pyGet (fields : List (String × Json)) (key : String) : Option Json :=
  match fields.find? (fun kv => kv.1 == key) with
  | some kv => some kv.2
  | none => none

/-- Python `==` between a JSON value and the integer `sensor_id`.  A JSON
number equals the integer when their values coincide; Python booleans equal
0/1; every other type compares unequal. -/
def pyEqInt (j : Json) (i : Int) : Bool :=
  match j with
  | .num q => decide (q = (i : ℚ))
  | .bool b => decide ((if b then (1 : Int) else 0) = i)
  | _ => false

/-- Whether a character is an ASCII decimal digit. -/
def isAsciiDigit (c : Char) : Bool := decide ('0' ≤ c) && decide (c ≤ '9')

/-- Value of a digit string read in base 10. -/
def digitsToNat (cs : List Char) : Nat :=
  cs.foldl (fun acc c => acc * 10 + (c.toNat - 48)) 0

/-- Python `float(s)` on a string: strips surrounding whitespace, then
accepts an optional sign and a decimal literal (`"12"`, `"12.5"`, `".5"`,
`"5."`); anything else fails (`ValueError`, giving `none`). -/
def pyFloatOfString (s : String) : Option ℚ :=
  let cs := s.trim.toList
  let signAndRest : ℚ × List Char :=
    match cs with
    | '-' :: r => (-1, r)
    | '+' :: r => (1, r)
    | r => (1, r)
  let sign := signAndRest.1
  let rest := signAndRest.2
  let intPart := rest.takeWhile isAsciiDigit
  let rest2 := rest.dropWhile isAsciiDigit
  match rest2 with
  | [] => if intPart.isEmpty then none else some (sign * (digitsToNat intPart : ℚ))
  | '.' :: rest3 =>
    let fracPart := rest3.takeWhile isAsciiDigit
    let rest4 := rest3.dropWhile isAsciiDigit
    if rest4.isEmpty ∧ ¬(intPart.isEmpty ∧ fracPart.isEmpty) then
      some (sign * ((digitsToNat intPart : ℚ) +
        (digitsToNat fracPart : ℚ) / ((10 : ℚ) ^ fracPart.length)))
    else none
  | _ => none

/-- Python `float(value)` on the object found under the `"value"` key
(`none` input models the key being absent, so `value` is Python `None`).
Conversion failures (`ValueError`, `TypeError`) are caught by the inner
`try` of `extract_sensor_value_by_id` and yield `None`. -/
def pyFloat : Option Json → Option ℚ
  | some (.num q) => some q
  | some (.bool b) => some (if b then 1 else 0)
  | some (.str s) => pyFloatOfString s
  | some .null => none
  | some (.arr _) => none
  | some (.obj _) => none
  | none => none

/-- The `for reading in readings` loop of `extract_sensor_value_by_id`
over a JSON array.  A non-dict element makes `reading.get` raise
`AttributeError`, which the outer `except` catches, returning `None`.  A
dict whose `sensor_id` equals the target returns `float(value)` under the
inner `try`; otherwise the loop continues, falling through to `None`. -/
def scanReadings (items : List Json) (sensor_id : Int) : ExtractResult :=
  match items with
  | [] => .ok none
  | (Json.obj fields) :: rest =>
      match pyGet fields "sensor_id" with
      | some j =>
          if pyEqInt j sensor_id then .ok (pyFloat (pyGet fields "value"))
          else scanReadings rest sensor_id
      | none => scanReadings rest sensor_id
  | _ :: _ => .ok none

/-- Behaviour of the loop on an arbitrary parsed value.  Iterating a dict
yields string keys and iterating a string yields characters; in both cases
`.get` raises `AttributeError`, caught by the outer `except` (and an empty
dict or string falls through), so the call returns `None`.  Iterating a
number, boolean or `None` raises `TypeError`, which is NOT in the `except`
clause and escapes. -/
def extractParsed (j : Json) (sensor_id : Int) : ExtractResult :=
  match j with
  | .arr items => scanReadings items sensor_id
  | .obj _ => .ok none
  | .str _ => .ok none
  | .num _ => .typeError
  | .bool _ => .typeError
  | .null => .typeError

/-- The `sensor_readings` argument: either a string rejected by
`json.loads` (raising `JSONDecodeError`, caught, giving `None`), a string
parsing to a JSON value, or an already-deserialized value. -/
inductive Payload where
  | rawMalformed (s : String)
  | raw (j : Json)
  | parsed (j : Json)

/-- `extract_sensor_value_by_id` of main.py lines 81-99. -/
def extract_sensor_value_by_id_main (p : Payload) (sensor_id : Int) : ExtractResult :=
  match p with
  | .rawMalformed _ => .ok none
  | .raw j => extractParsed j sensor_id
  | .parsed j => extractParsed j sensor_id

/-- `extract_sensor_value_by_id` of runonce.py lines 95-113 (textually
identical to the main.py definition). -/
def extract_sensor_value_by_id_runonce (p : Payload) (sensor_id : Int) : ExtractResult :=
  match p with
  | .rawMalformed _ => .ok none
  | .raw j => extractParsed j sensor_id
  | .parsed j => extractParsed j sensor_id

/-- Whether a payload's (parsed) value is a non-iterable JSON scalar: the
inputs on which the `for` loop raises `TypeError`. -/
def payloadScalar : Payload → Bool
  | .rawMalformed _ => false
  | .raw j =>
      match j with
      | .num _ => true
      | .bool _ => true
      | .null => true
      | _ => false
  | .parsed j =>
      match j with
      | .num _ => true
      | .bool _ => true
      | .null => true
      | _ => false

/-- The window/skip logic of `process_device`, main.py lines 212-226.
`now` is `datetime.now()` in epoch seconds and `deployedDay` the device's
deployment date in days.  Returns the `(start_time, end_time)` fetch window
or `none` when the device is skipped because its deployment date is after
today. -/
def periodicFetchWindow (now deployedDay : Int) : Option (Int × Int) :=
  if dateOf now < deployedDay then none
  else
    some (if dateOf (now - 15 * 60) < deployedDay then deployedDay * 86400 else now - 15 * 60,
      now)

/-- The persistence guard of `process_device`, main.py lines 241-245: the
list of values passed to `update_machine_metrics`, one call when
`on_minutes > 0` and none otherwise. -/
def periodicPersistCalls (on_minutes : Int) : List Int :=
  if 0 < on_minutes then [on_minutes] else []

/-- The persistence guard of `process_device_historical`, runonce.py lines
261-263: the `(date, hours)` pairs passed to `insert_machine_metrics`,
keeping exactly those with `hours > 0`. -/
def historicalPersistCalls (daily_metrics : List (Int × ℚ)) : List (Int × ℚ) :=
  daily_metrics.filter (fun p => decide (0 < p.2))

/-! ### Helper lemmas -/

/-- The loop of main.py computes the zipWith-with-successor sum. -/
theorem onSecondsB_eq_spec (rs : List ClassifiedReading) : onSecondsB rs = specOnSecondsB rs := by
  induction rs with
  | nil => rfl
  | cons r1 rest ih =>
    cases rest with
    | nil => rfl
    | cons r2 rest2 =>
      simp only [onSecondsB, specOnSecondsB, List.tail_cons, List.zipWith_cons_cons,
        List.sum_cons] at ih ⊢
      rw [ih]

/-- The per-day loop of runonce.py computes the capped zipWith sum; the last
reading's self-diff contributes nothing. -/
theorem onSecondsC_eq_spec (rs : List ClassifiedReading) : onSecondsC rs = specOnSecondsC rs := by
  induction rs with
  | nil => rfl
  | cons r1 rest ih =>
    cases rest with
    | nil =>
      simp only [onSecondsC, specOnSecondsC, List.tail_cons, List.zipWith_nil_right,
        List.sum_nil, sub_self]
      split <;> omega
    | cons r2 rest2 =>
      simp only [onSecondsC, specOnSecondsC, List.tail_cons, List.zipWith_cons_cons,
        List.sum_cons] at ih ⊢
      rw [ih]

/-- A list of at most one reading has a zero spec sum. -/
theorem specOnSecondsB_short (rs : List ClassifiedReading) (h : rs.length ≤ 1) :
    specOnSecondsB rs = 0 := by
  cases rs with
  | nil => rfl
  | cons r rest =>
    cases rest with
    | nil => rfl
    | cons r2 rest2 => simp [List.length_cons] at h

/-- With no ON reading, the spec sum is zero. -/
theorem specOnSecondsB_all_off (rs : List ClassifiedReading)
    (h : ∀ r ∈ rs, r.ON = false) : specOnSecondsB rs = 0 := by
  induction rs with
  | nil => rfl
  | cons r1 rest ih =>
    cases rest with
    | nil => rfl
    | cons r2 rest2 =>
      have h1 : r1.ON = false := h r1 (by simp)
      have h2 := ih (fun r hr => h r (List.mem_cons_of_mem _ hr))
      simp only [specOnSecondsB, List.tail_cons, List.zipWith_cons_cons, List.sum_cons,
        h1, Bool.false_eq_true, if_false] at h2 ⊢
      omega

/-- The sort used by both aggregators leaves adjacent timestamps
non-decreasing. -/
theorem chain'_sortByTime (rs : List ClassifiedReading) :
    List.Chain' timeLe (sortByTime rs) :=
  (List.sorted_insertionSort timeLe rs).chain'

/-- The sort is a permutation of the input. -/
theorem sortByTime_perm (rs : List ClassifiedReading) : List.Perm (sortByTime rs) rs :=
  List.perm_insertionSort timeLe rs

/-- On a time-sorted list the main.py ON-seconds sum is nonnegative. -/
theorem onSecondsB_nonneg : ∀ rs, List.Chain' timeLe rs → 0 ≤ onSecondsB rs
  | [], _ => by simp [onSecondsB]
  | [_], _ => by simp [onSecondsB]
  | r1 :: r2 :: rest, h => by
    rw [List.chain'_cons] at h
    have h1 : r1.time ≤ r2.time := h.1
    have h2 := onSecondsB_nonneg (r2 :: rest) h.2
    simp only [onSecondsB]
    split <;> omega

/-- On a time-sorted list the runonce.py capped ON-seconds sum is
nonnegative. -/
theorem onSecondsC_nonneg : ∀ rs, List.Chain' timeLe rs → 0 ≤ onSecondsC rs
  | [], _ => by simp [onSecondsC]
  | [r], _ => by simp only [onSecondsC]; split <;> omega
  | r1 :: r2 :: rest, h => by
    rw [List.chain'_cons] at h
    have h1 : r1.time ≤ r2.time := h.1
    have h2 := onSecondsC_nonneg (r2 :: rest) h.2
    simp only [onSecondsC]
    split <;> omega

/-- Python rounding keeps nonnegative seconds nonnegative. -/
theorem pyRound60_nonneg (s : Int) (h : 0 ≤ s) : 0 ≤ pyRound60 s := by
  simp only [pyRound60]
  have hq : 0 ≤ s.ediv 60 := Int.ediv_nonneg h (by omega)
  split
  · exact hq
  · split
    · omega
    · split <;> omega

/-- Concrete Policy B run used by several claims: three readings 60 s apart,
ON-OFF-ON, give 1 minute. -/
theorem processB_example : processVibrationB [⟨0, true⟩, ⟨60, false⟩, ⟨120, true⟩] = 1 := by
  decide

/-- Concrete Policy C run: a single ON reading followed 2000 s later by an
OFF reading on the same day is capped at 900 s. -/
theorem processC_ex_cap : processVibrationC [⟨0, true⟩, ⟨2000, false⟩] = [(0, (900 : ℚ) / 1440)] := by
  have h1 : datesOf [⟨0, true⟩, ⟨2000, false⟩] = [0] := by decide
  have h2 : onSecondsC (dayGroup [⟨0, true⟩, ⟨2000, false⟩] 0) = 900 := by decide
  simp [processVibrationC, h1, h2]

/-- Concrete Policy C run: a lone ON reading 100 s before midnight
contributes nothing. -/
theorem processC_ex_lastOfDay : processVibrationC [⟨86300, true⟩] = [(0, 0)] := by
  have h1 : datesOf [⟨86300, true⟩] = [0] := by decide
  have h2 : onSecondsC (dayGroup [⟨86300, true⟩] 0) = 0 := by decide
  simp [processVibrationC, h1, h2]

/-- Concrete Policy C run: an ON reading 100 s before midnight followed by a
reading 100 s after midnight spills nothing across the day boundary. -/
theorem processC_ex_boundary :
    processVibrationC [⟨86300, true⟩, ⟨86500, true⟩] = [(0, 0), (1, 0)] := by
  have h1 : datesOf [⟨86300, true⟩, ⟨86500, true⟩] = [0, 1] := by decide
  have h2 : onSecondsC (dayGroup [⟨86300, true⟩, ⟨86500, true⟩] 0) = 0 := by decide
  have h3 : onSecondsC (dayGroup [⟨86300, true⟩, ⟨86500, true⟩] 1) = 0 := by decide
  simp [processVibrationC, h1, h2, h3]

/-- Concrete Policy C run: 600 ON-seconds on one day store `600 / 1440`. -/
theorem processC_ex_divisor :
    processVibrationC [⟨0, true⟩, ⟨600, false⟩] = [(0, (600 : ℚ) / 1440)] := by
  have h1 : datesOf [⟨0, true⟩, ⟨600, false⟩] = [0] := by decide
  have h2 : onSecondsC (dayGroup [⟨0, true⟩, ⟨600, false⟩] 0) = 600 := by decide
  simp [processVibrationC, h1, h2]

/-- The scan over a JSON array never raises: every element either is a dict
(handled by the inner `try` or the loop) or triggers `AttributeError`,
which the outer `except` absorbs. -/
theorem scanReadings_ne_typeError (items : List Json) (sid : Int) :
    scanReadings items sid ≠ ExtractResult.typeError := by
  induction items with
  | nil => simp [scanReadings]
  | cons j rest ih =>
    cases j with
    | obj fields =>
      simp only [scanReadings]
      cases h : pyGet fields "sensor_id" with
      | none => simpa [h] using ih
      | some jv =>
        simp only [h]
        split
        · simp
        · exact ih
    | null => simp [scanReadings]
    | bool b => simp [scanReadings]
    | num q => simp [scanReadings]
    | str s => simp [scanReadings]
    | arr a => simp [scanReadings]

/-! ### Claim theorems -/

/-- C1: Policy B (`process_vibration_data`, main.py).  For every input of
classified readings the result is `round(total / 60)` minutes, where the
total is the sum, over every reading of the time-sorted sequence except the
last whose `is_on` is true, of the gap to the next reading's timestamp (the
last reading's diff is 0 and contributes nothing); a sequence of length ≤ 1
returns 0; and three readings ON-OFF-ON with uniform 60-second spacing give
`round(60 / 60) = 1` minute. -/
theorem policyB_next_reading_delta :
    (∀ rs : List ClassifiedReading,
        processVibrationB rs = pyRound60 (specOnSecondsB (sortByTime rs)) ∧
          (rs.length ≤ 1 → processVibrationB rs = 0)) ∧
      processVibrationB [⟨0, true⟩, ⟨60, false⟩, ⟨120, true⟩] = 1 := by
  refine ⟨fun rs => ⟨?_, ?_⟩, processB_example⟩
  · cases rs with
    | nil => rfl
    | cons r rest =>
      simp only [processVibrationB, List.isEmpty_cons, Bool.false_eq_true, if_false]
      by_cases hc : 1 < (r :: rest).length ∧ (r :: rest).any (fun x => x.ON) = true
      · rw [if_pos hc, onSecondsB_eq_spec]
      · rw [if_neg hc]
        have h0 : specOnSecondsB (sortByTime (r :: rest)) = 0 := by
          rcases not_and_or.mp hc with h | h
          · apply specOnSecondsB_short
            have hl := (sortByTime_perm (r :: rest)).length_eq
            omega
          · apply specOnSecondsB_all_off
            intro x hx
            have hany : (r :: rest).any (fun x => x.ON) = false := by
              cases hb : (r :: rest).any (fun x => x.ON)
              · rfl
              · exact absurd hb h
            have hx' : x ∈ r :: rest := (sortByTime_perm (r :: rest)).mem_iff.mp hx
            simpa using List.any_eq_false.mp hany x hx'
        rw [h0]
  · cases rs with
    | nil => intro _; rfl
    | cons r rest =>
      cases rest with
      | nil => intro _; rfl
      | cons r2 rest2 => intro h; simp [List.length_cons] at h

/-- Witness for C1: a singleton sequence has length ≤ 1 and yields 0. -/
theorem policyB_next_reading_delta_witness :
    ([⟨5, true⟩] : List ClassifiedReading).length ≤ 1 ∧
      processVibrationB [⟨5, true⟩] = 0 :=
  ⟨by decide, (policyB_next_reading_delta.1 [⟨5, true⟩]).2 (by decide)⟩

/-- C2: Policy C (`process_vibration_data`, runonce.py).  Readings are
grouped by calendar date and each day is processed independently: the day's
value is the capped next-reading-delta sum over the day's time-sorted
readings, in which the last reading of the day contributes 0 (its
`next_time` is its own timestamp, so nothing spills across day boundaries)
and every individual ON diff is capped at `15 * 60 = 900` seconds.
Concretely: a day with a single ON reading followed by a 2000-second gap
contributes exactly 900 seconds; a lone ON reading 100 s before midnight
contributes 0; an ON reading just before midnight followed by one just
after contributes 0 to both days. -/
theorem policyC_capped_daily_delta :
    (∀ rs : List ClassifiedReading,
        processVibrationC rs =
          (datesOf rs).map (fun d => (d, ((specOnSecondsC (dayGroup rs d) : ℚ)) / 1440))) ∧
      processVibrationC [⟨0, true⟩, ⟨2000, false⟩] = [(0, (900 : ℚ) / 1440)] ∧
      processVibrationC [⟨86300, true⟩] = [(0, 0)] ∧
      processVibrationC [⟨86300, true⟩, ⟨86500, true⟩] = [(0, 0), (1, 0)] := by
  refine ⟨fun rs => ?_, processC_ex_cap, processC_ex_lastOfDay, processC_ex_boundary⟩
  cases rs with
  | nil => rfl
  | cons r rest =>
    simp only [processVibrationC, List.isEmpty_cons, Bool.false_eq_true, if_false,
      onSecondsC_eq_spec]

/-- C3: every entry of the Policy C result map stores that day's capped
ON-seconds sum divided by exactly 1440 — and 1440 is not 3600: 600 capped
ON-seconds store `600 / 1440`, which differs from `600 / 3600`. -/
theorem policyC_hours_divisor_1440 :
    (∀ (rs : List ClassifiedReading) (p : Int × ℚ), p ∈ processVibrationC rs →
        p.2 = ((onSecondsC (dayGroup rs p.1) : ℚ)) / 1440) ∧
      processVibrationC [⟨0, true⟩, ⟨600, false⟩] = [(0, (600 : ℚ) / 1440)] ∧
      (600 : ℚ) / 1440 ≠ (600 : ℚ) / 3600 := by
  refine ⟨?_, processC_ex_divisor, by norm_num⟩
  intro rs p hp
  simp only [processVibrationC] at hp
  split at hp
  · simp at hp
  · obtain ⟨d, hd, hEq⟩ := List.mem_map.mp hp
    subst hEq
    rfl

/-- Witness for C3: the day stored by the 600-second example satisfies the
divisor equation. -/
theorem policyC_hours_divisor_1440_witness :
    ((0 : Int), (600 : ℚ) / 1440).2 =
      ((onSecondsC (dayGroup [⟨0, true⟩, ⟨600, false⟩] ((0 : Int), (600 : ℚ) / 1440).1) : ℚ)) /
        1440 :=
  policyC_hours_divisor_1440.1 [⟨0, true⟩, ⟨600, false⟩] (0, (600 : ℚ) / 1440)
    (by rw [processC_ex_divisor]; exact List.mem_singleton.mpr rfl)

/-- C4: the ON label is true iff the channel value is present and strictly
above the positive threshold or strictly below the negative threshold; an
absent value (None/NaN) is labelled false.  `classify` is a total function,
so classification never errors. -/
theorem classify_threshold_iff :
    ∀ v positive_threshold negative_threshold : ℚ,
      (classify (some v) positive_threshold negative_threshold = true ↔
        (positive_threshold < v ∨ v < negative_threshold)) ∧
      classify none positive_threshold negative_threshold = false := by
  intro v p n
  exact ⟨by simp [classify], rfl⟩

/-- C5 counterexample: the claim that `extract_sensor_value_by_id` never
propagates an error is false — a payload string parsing to the JSON number
`42` makes the `for` loop raise `TypeError`, which is absent from the
function's `except` clause and escapes to the caller. -/
theorem extract_raises_on_scalar_payload :
    extract_sensor_value_by_id_main (Payload.raw (Json.num 42)) 6 = ExtractResult.typeError :=
  rfl

/-- C5 amended: `extract_sensor_value_by_id` propagates an exception exactly
when the payload's parsed value is a non-iterable JSON scalar (number,
boolean or null); every other failure mode — unparseable payload string,
malformed iterable structure, channel absent, value missing or
non-convertible — returns `None` instead. -/
theorem extract_no_raise_amended :
    (∀ (p : Payload) (sensor_id : Int),
        extract_sensor_value_by_id_main p sensor_id = ExtractResult.typeError ↔
          payloadScalar p = true) ∧
      ∀ (s : String) (sensor_id : Int),
        extract_sensor_value_by_id_main (Payload.rawMalformed s) sensor_id =
          ExtractResult.ok none := by
  refine ⟨fun p sid => ?_, fun s sid => rfl⟩
  cases p with
  | rawMalformed s => simp [extract_sensor_value_by_id_main, payloadScalar]
  | raw j =>
    cases j <;>
      simp [extract_sensor_value_by_id_main, extractParsed, payloadScalar,
        scanReadings_ne_typeError]
  | parsed j =>
    cases j <;>
      simp [extract_sensor_value_by_id_main, extractParsed, payloadScalar,
        scanReadings_ne_typeError]

/-- C6: empty input gives 0 from the Policy B aggregator and an empty map
from the Policy C aggregator; both are total functions, so neither errors. -/
theorem empty_input_zero : processVibrationB [] = 0 ∧ processVibrationC [] = [] :=
  ⟨rfl, rfl⟩

/-- C7: the periodic path's fetch window is `[now − 15 min, now]`; the start
snaps to midnight of the deployment date when its naive date precedes that
date; the device is skipped exactly when its deployment date is strictly
after today's date, so a device deployed today is not skipped. -/
theorem periodic_window_policy :
    ∀ now deployedDay : Int,
      (periodicFetchWindow now deployedDay = none ↔ dateOf now < deployedDay) ∧
      (dateOf now = deployedDay → (periodicFetchWindow now deployedDay).isSome = true) ∧
      ∀ s e : Int, periodicFetchWindow now deployedDay = some (s, e) →
        e = now ∧
          ((dateOf (now - 15 * 60) < deployedDay ∧ s = deployedDay * 86400) ∨
            (deployedDay ≤ dateOf (now - 15 * 60) ∧ s = now - 15 * 60)) := by
  intro now d
  refine ⟨?_, ?_, ?_⟩
  · simp only [periodicFetchWindow]
    split
    · rename_i h; simpa using h
    · rename_i h; simpa using h
  · intro hEq
    simp only [periodicFetchWindow]
    split
    · rename_i h; omega
    · simp
  · intro s e hse
    simp only [periodicFetchWindow] at hse
    split at hse
    · exact absurd hse (by simp)
    · rename_i h
      rw [Option.some_inj] at hse
      have he : e = now := (congrArg Prod.snd hse).symm
      have hs : (if dateOf (now - 15 * 60) < d then d * 86400 else now - 15 * 60) = s :=
        congrArg Prod.fst hse
      refine ⟨he, ?_⟩
      by_cases hb : dateOf (now - 15 * 60) < d
      · left; exact ⟨hb, by rw [← hs, if_pos hb]⟩
      · right; exact ⟨by omega, by rw [← hs, if_neg hb]⟩

/-- Witness for C7: at 00:08:20 on day 10 a device deployed on day 10 is
processed, and the window start snaps to midnight of day 10. -/
theorem periodic_window_policy_witness :
    (dateOf 864500 = 10 ∧ (periodicFetchWindow 864500 10).isSome = true) ∧
      (864500 : Int) = 864500 ∧
        ((dateOf ((864500 : Int) - 15 * 60) < 10 ∧ (864000 : Int) = 10 * 86400) ∨
          ((10 : Int) ≤ dateOf ((864500 : Int) - 15 * 60) ∧
            (864000 : Int) = 864500 - 15 * 60)) :=
  ⟨⟨by decide, (periodic_window_policy 864500 10).2.1 (by decide)⟩,
    (periodic_window_policy 864500 10).2.2 864000 864500 (by decide)⟩

/-- C8: in both paths, a persistence call happens only for a strictly
positive duration — every minute value passed to `update_machine_metrics`
and every `(date, hours)` pair passed to `insert_machine_metrics` is
positive. -/
theorem persist_only_positive :
    (∀ (rs : List ClassifiedReading) (m : Int),
        m ∈ periodicPersistCalls (processVibrationB rs) → 0 < m) ∧
      ∀ (rs : List ClassifiedReading) (p : Int × ℚ),
        p ∈ historicalPersistCalls (processVibrationC rs) → 0 < p.2 := by
  constructor
  · intro rs m hm
    simp only [periodicPersistCalls] at hm
    split at hm
    · rename_i h
      rw [List.mem_singleton] at hm
      omega
    · simp at hm
  · intro rs p hp
    have h := (List.mem_filter.mp hp).2
    simpa using h

/-- Witness for C8: the 1-minute periodic example is persisted and positive,
and the capped 900-second day is persisted and positive. -/
theorem persist_only_positive_witness :
    0 < (1 : Int) ∧ 0 < ((0 : Int), (900 : ℚ) / 1440).2 :=
  ⟨persist_only_positive.1 [⟨0, true⟩, ⟨60, false⟩, ⟨120, true⟩] 1
      (by rw [processB_example]; decide),
    persist_only_positive.2 [⟨0, true⟩, ⟨2000, false⟩] (0, (900 : ℚ) / 1440)
      (List.mem_filter.mpr
        ⟨by rw [processC_ex_cap]; exact List.mem_singleton.mpr rfl,
          by simp only [decide_eq_true_eq]; norm_num⟩)⟩

/-- C9: both aggregators sort by timestamp before differencing, so for every
input — sorted or not — the Policy B minute count is nonnegative and every
per-date hours value of the Policy C map is nonnegative. -/
theorem durations_nonneg :
    ∀ rs : List ClassifiedReading,
      0 ≤ processVibrationB rs ∧ ∀ p ∈ processVibrationC rs, (0 : ℚ) ≤ p.2 := by
  intro rs
  constructor
  · cases rs with
    | nil => decide
    | cons r rest =>
      simp only [processVibrationB, List.isEmpty_cons, Bool.false_eq_true, if_false]
      apply pyRound60_nonneg
      split
      · exact onSecondsB_nonneg _ (chain'_sortByTime _)
      · exact le_refl 0
  · intro p hp
    simp only [processVibrationC] at hp
    split at hp
    · simp at hp
    · obtain ⟨d, hd, hEq⟩ := List.mem_map.mp hp
      subst hEq
      have h1 : 0 ≤ onSecondsC (dayGroup rs d) :=
        onSecondsC_nonneg _ (chain'_sortByTime (rs.filter (fun r => dateOf r.time = d)))
      exact div_nonneg (by exact_mod_cast h1) (by norm_num)

/-- Witness for C9: the lone-reading day of the midnight example has a
nonnegative stored value. -/
theorem durations_nonneg_witness : (0 : ℚ) ≤ ((0 : Int), (0 : ℚ)).2 :=
  (durations_nonneg [⟨86300, true⟩]).2 (0, 0)
    (by rw [processC_ex_lastOfDay]; exact List.mem_singleton.mpr rfl)

/-- C10: `extract_sensor_value_by_id` is defined with identical bodies in
main.py and runonce.py, so the periodic and backfill paths extract channel
values identically on every input. -/
theorem extract_main_runonce_equiv :
    ∀ (p : Payload) (sensor_id : Int),
      extract_sensor_value_by_id_main p sensor_id =
        extract_sensor_value_by_id_runonce p sensor_id :=
  fun _ _ => rfl

end OpHours
